import Mathlib

/-!
Verification development for the `oads_download` script (a single-file
Python client that plans OpenSearch catalogue queries and downloads
EarthCARE satellite products).  The definitions below are a shallow
embedding of the functions of `oads_download.py`: pure Python functions
become Lean functions, Python exceptions become `Except PyError`,
filesystem-dependent and network-dependent code becomes explicit state
passing with oracles for the outcomes of external calls.  Orbit numbers
are embedded as `Int` (Python ints), frame ids as `Char`, and Python
strings are embedded as `String` or `List Char` as convenient.
-/

/-- The kinds of exceptions raised by the script that matter here:
`invalidInput` models `InvalidInputError`, `valueError` models Python's
`ValueError`/`IndexError` from parsing, `nameError` models the `NameError`
that an unbound local variable would raise. -/
inductive PyError where
  | invalidInput
  | valueError
  | nameError
deriving DecidableEq, Repr

/-- Interprets a list of decimal digit characters as a natural number
(the value `int()` computes on a digit string). -/
def digitsToNat (s : List Char) : Nat :=
  s.foldl (fun n c => n * 10 + (c.toNat - ('0').toNat)) 0

/-- Python `int(s)` on a trimmed string: an optional minus sign followed by
at least one decimal digit; anything else raises `ValueError`. -/
def pyInt (s : List Char) : Except PyError Int :=
  match s with
  | [] => Except.error PyError.valueError
  | '-' :: ds =>
      if ds ≠ [] ∧ ds.all Char.isDigit then Except.ok (-(digitsToNat ds : Int))
      else Except.error PyError.valueError
  | ds =>
      if ds.all Char.isDigit then Except.ok ((digitsToNat ds : Int))
      else Except.error PyError.valueError

/-- Insertion into a list ordered by the boolean comparator `le`. -/
def insertSorted (le : α → α → Bool) (a : α) : List α → List α
  | [] => [a]
  | b :: l => if le a b then a :: b :: l else b :: insertSorted le a l

/-- Insertion sort with respect to the boolean comparator `le`.  It models
`pandas.DataFrame.sort_values` / Python `sorted`: any sort that agrees with
the key order (the source's quicksort is not even stable). -/
def sortValues (le : α → α → Bool) : List α → List α
  | [] => []
  | a :: l => insertSorted le a (sortValues le l)

/-- Insertion of an integer into a strictly-ascending list, dropping
duplicates. -/
def insertUniqueInt (a : Int) : List Int → List Int
  | [] => [a]
  | b :: l =>
      if a < b then a :: b :: l
      else if a = b then b :: l
      else b :: insertUniqueInt a l

/-- `numpy.unique`: the sorted list of distinct values. -/
def sortedUniqueInt (l : List Int) : List Int :=
  l.foldr insertUniqueInt []

/-- Insertion of a character into a strictly-ascending list, dropping
duplicates. -/
def insertUniqueChar (a : Char) : List Char → List Char
  | [] => [a]
  | b :: l =>
      if a < b then a :: b :: l
      else if a = b then b :: l
      else b :: insertUniqueChar a l

/-- Sorted distinct characters (the sorted key set of a pandas groupby). -/
def sortedUniqueChar (l : List Char) : List Char :=
  l.foldr insertUniqueChar []

/-- Ascending comparator on characters, used to model Python `sorted` on
the letters of a string. -/
def charLe (a b : Char) : Bool := a ≤ b

/-- Python `sorted` on a list of characters. -/
def sortChars (l : List Char) : List Char := sortValues charLe l

/-- Lexicographic `≤` on character lists (Python string comparison). -/
def lexLeChar : List Char → List Char → Bool
  | [], _ => true
  | _ :: _, [] => false
  | a :: as, b :: bs =>
      if a < b then true else if b < a then false else lexLeChar as bs

/-- The constant `FRAMES = 'ABCDEFGH'` of the script. -/
def FRAMES : List Char := ['A', 'B', 'C', 'D', 'E', 'F', 'G', 'H']

/-- The constant `NUM_FRAMES = 8`. -/
def NUM_FRAMES : Nat := 8

/-- The constant `MAX_NUM_ORBITS_PER_REQUEST = 50`. -/
def MAX_NUM_ORBITS_PER_REQUEST : Nat := 50

/-- The constant `MAX_DOWNLOAD_ATTEMPTS_PER_FILE = 3`. -/
def MAX_DOWNLOAD_ATTEMPTS_PER_FILE : Nat := 3

/-- The chunking loop, written with a fuel argument; for positive `size`
every iteration consumes at least one element, so fuel equal to the list
length always suffices. -/
def splitChunksGo (size : Nat) : Nat → List α → List (List α)
  | 0, _ => []
  | fuel + 1, l =>
      match l with
      | [] => []
      | a :: t => (a :: t).take size :: splitChunksGo size fuel ((a :: t).drop size)

/-- `split_list_into_chunks(lst, size)`: splits a list into consecutive
chunks of at most `size` elements; the source computes
`ceil(len(lst)/size)` chunks with `itertools.islice`.  (For `size = 0` the
source raises `ZeroDivisionError`; the script only ever calls it with the
positive constant `MAX_NUM_ORBITS_PER_REQUEST`.) -/
def split_list_into_chunks (l : List α) (size : Nat) : List (List α) :=
  if size = 0 then [] else splitChunksGo size l.length l

/-- `get_validated_orbit_number`: raises `InvalidInputError` when the orbit
number is negative or has more than 5 digits. -/
def get_validated_orbit_number (o : Int) : Except PyError Int :=
  if o < 0 ∨ o > 99999 then Except.error PyError.invalidInput else Except.ok o

/-- `get_validated_frame_id`: upper-cases the input, requires a single
letter from A to H, and returns it; otherwise raises `InvalidInputError`. -/
def get_validated_frame_id (f : String) : Except PyError Char :=
  let fu := String.mk (f.data.map Char.toUpper)
  match fu.data with
  | [c] => if FRAMES.contains c then Except.ok c else Except.error PyError.invalidInput
  | _ => Except.error PyError.invalidInput

/-- `get_validated_orbit_and_frame`: parses a token such as `00981E` into a
validated orbit number (all characters but the last, via `int`) and a
validated frame letter (the last character).  An empty token indexes out of
bounds in the source; parse and validation errors propagate. -/
def get_validated_orbit_and_frame (s : String) : Except PyError (Int × Char) :=
  match s.data.getLast? with
  | none => Except.error PyError.valueError
  | some c => do
      let o ← pyInt s.data.dropLast
      let o2 ← get_validated_orbit_number o
      let f ← get_validated_frame_id (String.mk [c])
      Except.ok (o2, f)

/-- `numpy.arange(s, e + 1).tolist()` for integers. -/
def intRange (s e : Int) : List Int :=
  (List.range (e + 1 - s).toNat).map (fun k => s + (k : Int))

/-- `get_validated_orbit_number_range`: `None` when no bound is given,
`InvalidInputError` when only one bound is given or start exceeds end,
otherwise the inclusive list of orbits between the validated bounds. -/
def get_validated_orbit_number_range (so eo : Option Int) :
    Except PyError (Option (List Int)) :=
  match so, eo with
  | none, none => Except.ok none
  | none, some _ => Except.error PyError.invalidInput
  | some _, none => Except.error PyError.invalidInput
  | some s, some e =>
      if s > e then Except.error PyError.invalidInput
      else do
        let s2 ← get_validated_orbit_number s
        let e2 ← get_validated_orbit_number e
        Except.ok (some (intRange s2 e2))

/-- `validate_combination_of_given_orbit_and_frame_range_inputs`: raises
`InvalidInputError` exactly when a combined orbit-and-frame range selector
(`-soaf`/`-eoaf`) is given together with any separate orbit selector
(`-o`, `-so`, `-eo`) or frame selector (`-f`); the `-oaf` list selector is
deliberately not checked. -/
def validate_combination_of_given_orbit_and_frame_range_inputs
    (soaf eoaf : Option String) (so eo : Option Int)
    (os : Option (List Int)) (fs : Option (List String)) : Except PyError Unit :=
  if (soaf.isSome || eoaf.isSome) &&
      (so.isSome || eo.isSome || os.isSome || fs.isSome) then
    Except.error PyError.invalidInput
  else Except.ok ()

/-- `FRAMES.index(c)` for a character known to be one of the 8 frame
letters; raises `ValueError` otherwise. -/
def frameIndex (c : Char) : Except PyError Nat :=
  match FRAMES.indexOf? c with
  | some i => Except.ok i
  | none => Except.error PyError.valueError

/-- `get_frame_range(start, end)`: the cyclic inclusive range of frame
letters, e.g. A-D gives ABCD and F-C wraps to FGHABC. -/
def get_frame_range (startFrame endFrame : Char) : Except PyError (List Char) := do
  let si ← frameIndex startFrame
  let ei0 ← frameIndex endFrame
  let ei := if ei0 < si then ei0 + NUM_FRAMES else ei0
  Except.ok ((List.range (ei + 1 - si)).map (fun k => FRAMES.getD ((si + k) % NUM_FRAMES) 'A'))

/-- `get_orbit_frame_tuple_list_from_separate_orbit_and_frame_lists`:
`None` when the orbit list is empty, else the frame-major cross product of
the orbit list with the frame list (all 8 frames when none are given) —
the source builds it with `numpy.tile`/`numpy.repeat` and `zip`. -/
def get_orbit_frame_tuple_list_from_separate_orbit_and_frame_lists
    (orbits : List Int) (frames : Option (List Char)) :
    Option (List (Int × Char)) :=
  if orbits = [] then none
  else
    let fl := match frames with
      | none => FRAMES
      | some [] => FRAMES
      | some l => l
    some (fl.flatMap (fun f => orbits.map (fun o => (o, f))))

/-- `get_orbit_frame_tuple_list_from_strings`: validates that `-soaf` and
`-eoaf` come in pairs, expands the orbit-and-frame range, appends the
explicit `-oaf` tokens and the previously built tuple list.

The same-orbit branch is embedded exactly as written in the source: there
`orbit_numbers = [start_orbit_number] * len(frame_ids)` is evaluated while
the local `frame_ids` list is still the empty list initialised above the
branch (the frame range is assigned to `frame_ids` only on the following
line), so the produced orbit list is empty and the final `zip` yields no
pairs. -/
def get_orbit_frame_tuple_list_from_strings
    (start_orbit_and_frame end_orbit_and_frame : Option String)
    (orbit_and_frames : Option (List String))
    (orbit_frame_tuple_list : Option (List (Int × Char))) :
    Except PyError (Option (List (Int × Char))) := do
  if start_orbit_and_frame.isNone ∧ end_orbit_and_frame.isSome then
    Except.error PyError.invalidInput
  else if start_orbit_and_frame.isSome ∧ end_orbit_and_frame.isNone then
    Except.error PyError.invalidInput
  else do
    let (orbit_numbers, frame_ids) ←
      match start_orbit_and_frame, end_orbit_and_frame with
      | some s, some e => do
          let se ← get_validated_orbit_and_frame s
          let ee ← get_validated_orbit_and_frame e
          let orbit_number_range := intRange se.1 ee.1
          if orbit_number_range.length = 1 then do
            -- `[start] * len(frame_ids)` with `frame_ids` still `[]`
            let frame_ids0 : List Char := []
            let fr ← get_frame_range se.2 ee.2
            Except.ok (List.replicate frame_ids0.length se.1, fr)
          else do
            let frame_ids_start ← get_frame_range se.2 'H'
            let frame_ids_end ← get_frame_range 'A' ee.2
            let orbit_numbers0 :=
              List.replicate frame_ids_start.length se.1 ++
              List.replicate frame_ids_end.length ee.1
            let frame_ids0 := frame_ids_start ++ frame_ids_end
            if orbit_number_range.length ≥ 3 then
              let middle := (orbit_number_range.drop 1).dropLast
              Except.ok (orbit_numbers0 ++ middle.flatMap (fun o => List.replicate NUM_FRAMES o),
                frame_ids0 ++ middle.flatMap (fun _ => FRAMES))
            else
              Except.ok (orbit_numbers0, frame_ids0)
      | _, _ => Except.ok (([] : List Int), ([] : List Char))
    let (orbit_numbers2, frame_ids2) ←
      match orbit_and_frames with
      | some l => do
          let tl ← l.mapM get_validated_orbit_and_frame
          Except.ok (orbit_numbers ++ tl.map Prod.fst, frame_ids ++ tl.map Prod.snd)
      | none => Except.ok (orbit_numbers, frame_ids)
    let newList : Option (List (Int × Char)) :=
      if orbit_numbers2.length > 0 then some (orbit_numbers2.zip frame_ids2) else none
    Except.ok
      (match orbit_frame_tuple_list, newList with
      | some p, some n => some (p ++ n)
      | some p, none => some p
      | none, n => n)

/-- The letters paired with orbit `o`, in row order (the frame column of
the pandas group of `o`). -/
def framesOfOrbit (pairs : List (Int × Char)) (o : Int) : List Char :=
  (pairs.filter (fun p => p.1 = o)).map Prod.snd

/-- A pandas group is "complete" when its letters, concatenated and
sorted, spell exactly `ABCDEFGH`. -/
def isCompleteOrbit (pairs : List (Int × Char)) (o : Int) : Bool :=
  sortChars (framesOfOrbit pairs o) = FRAMES

/-- The sorted distinct orbit numbers of the input (pandas groupby keys). -/
def orbitKeys (pairs : List (Int × Char)) : List Int :=
  sortedUniqueInt (pairs.map Prod.fst)

/-- `get_complete_and_incomplete_orbits` on a concrete (non-`None`)
list of pairs: the complete orbit numbers, and the remaining rows
re-grouped by frame letter (group keys sorted, each group's orbit list in
row order, duplicates kept — exactly the two pandas groupbys of the
source). -/
def get_complete_and_incomplete_orbits_list (pairs : List (Int × Char)) :
    Option (List Int) × Option (List (Char × List Int)) :=
  if pairs = [] then (none, none)
  else
    let keys := orbitKeys pairs
    let complete_orbits := keys.filter (fun o => isCompleteOrbit pairs o)
    let incomplete_orbits := keys.filter (fun o => !(isCompleteOrbit pairs o))
    let df_incomplete := pairs.filter (fun p => incomplete_orbits.contains p.1)
    let frame_keys := sortedUniqueChar (df_incomplete.map Prod.snd)
    (some complete_orbits,
      some (frame_keys.map (fun f =>
        (f, (df_incomplete.filter (fun p => p.2 = f)).map Prod.fst))))

/-- `get_complete_and_incomplete_orbits`: returns `(None, None)` for a
missing or empty tuple list. -/
def get_complete_and_incomplete_orbits
    (orbit_and_frames : Option (List (Int × Char))) :
    Option (List Int) × Option (List (Char × List Int)) :=
  match orbit_and_frames with
  | none => (none, none)
  | some l => get_complete_and_incomplete_orbits_list l

/-- The `SearchRequest` dataclass: the inputs of one OpenSearch request. -/
structure SearchRequest where
  collection_identifier_list : List String
  product_type : Option String
  product_version : Option String
  radius : Option String
  lat : Option String
  lon : Option String
  bbox : Option String
  start_time : Option String
  end_time : Option String
  orbit_number : Option String
  frame_id : Option String
deriving DecidableEq, Repr

/-- The last `'_'`-separated component of a product-type code
(`product_type.split('_')[-1]`). -/
def lastTypeComponent (pt : String) : String :=
  String.mk ((pt.data.reverse.takeWhile (fun c => c ≠ '_')).reverse)

/-- `get_applicable_collection_list`: the fixed priority-ordered list of
catalogue collections in which a product type is stored. -/
def get_applicable_collection_list (product_type : String) : List String :=
  let jaxa_l2_products := ["ATL_CLA_2A", "CPR_ECO_2A", "CPR_CLP_2A", "MSI_CLP_2A",
    "AC__CLP_2B", "ACM_CLP_2B", "ALL_RAD_2B"]
  if product_type = "AUX_MET_1D" then
    ["EarthCAREL0L1Products", "EarthCAREL1InstChecked", "EarthCAREXMETL1DProducts10"]
  else if ["1B", "1C", "1D"].contains (lastTypeComponent product_type) then
    ["EarthCAREL0L1Products", "EarthCAREL1InstChecked", "EarthCAREL1Validated"]
  else if jaxa_l2_products.contains product_type then
    ["JAXAL2Products", "JAXAL2InstChecked", "JAXAL2Validated"]
  else if ["2A", "2B"].contains (lastTypeComponent product_type) then
    ["EarthCAREL2Products", "EarthCAREL2InstChecked", "EarthCAREL2Validated"]
  else if ["ORBSCT", "ORBPRE", "ORBRES"].contains (lastTypeComponent product_type) then
    ["EarthCAREAuxiliary"]
  else
    ["EarthCAREL0L1Products", "EarthCAREL1InstChecked", "EarthCAREL1Validated",
     "EarthCAREL2Products", "EarthCAREL2InstChecked", "EarthCAREL2Validated",
     "JAXAL2Products", "JAXAL2InstChecked", "JAXAL2Validated",
     "EarthCAREAuxiliary", "EarthCAREXMETL1DProducts10"]

/-- The orbit query parameter built from an already-validated chunk:
`'[' + ','.join(str(o) for o in chunk) + ']'`. -/
def orbit_chunk_str (chunk : List Int) : String :=
  "[" ++ String.intercalate ("," ) (chunk.map toString) ++ "]"

/-- The orbit query parameter of one chunk, validating every orbit number
with `get_validated_orbit_number` as the source does inside the join. -/
def orbit_chunk_queryparam (chunk : List Int) : Except PyError String := do
  let vs ← chunk.mapM get_validated_orbit_number
  Except.ok ("[" ++ String.intercalate ("," ) (vs.map toString) ++ "]")

/-- The fixed mission-start epoch substituted for a missing start time:
`format_datetime_string("2024-05-28T22:20:00Z")`. -/
def epochStartDefault : String := "2024-05-28T22:20:00Z"

/-- The mutable loop state of `create_list_of_search_requests`: the
requests accumulated so far, the (re-assignable) start/end time query
parameters, and the current value of the Python local `new_request`,
which survives across loop iterations. -/
structure PlannerState where
  requests : List SearchRequest
  start_time : Option String
  end_time : Option String
  lastNew : Option SearchRequest
deriving Repr

/-- The request one complete-orbit chunk produces (its orbit parameter is
the validated chunk's bracketed join). -/
def completeChunkRequest (cols : List String) (product_type : String)
    (pvq radius lat lon bbox st_time et_time : Option String)
    (c : List Int) : SearchRequest :=
  ⟨cols, some product_type, pvq, radius, lat, lon, bbox, st_time, et_time,
    some (orbit_chunk_str c), none⟩

/-- The body of the `for complete_orbits_chunk in complete_orbits_chunks`
loop of `create_list_of_search_requests`: validate the chunk, build its
request, append it. -/
def completeOrbitChunkStep (cols : List String) (product_type : String)
    (pvq radius lat lon bbox st_time et_time : Option String)
    (s : PlannerState) (c : List Int) : Except PyError PlannerState := do
  let p ← orbit_chunk_queryparam c
  let r : SearchRequest :=
    ⟨cols, some product_type, pvq, radius, lat, lon, bbox, st_time, et_time, some p, none⟩
  Except.ok { s with requests := s.requests ++ [r], lastNew := some r }

/-- One iteration of the `for product_type, product_version in zip(...)`
loop of `create_list_of_search_requests`, translated branch by branch.

The plain-frame branch is embedded exactly as in the source, where the
`planned_requests.append(new_request)` statement is indented at the level
of the `for frame_id in frame_ids:` loop rather than inside it: each frame
letter builds a request into the local variable `new_request`, but only a
single append happens after the loop, so only the last frame's request
(or, for an empty frame list, a stale `new_request` from an earlier
iteration — a `NameError` if none exists) is appended. -/
def plannerStep
    (radius lat lon bbox : Option String)
    (timestamp_queryparams : Option (List String))
    (complete_orbits : Option (List Int))
    (incomplete_orbits_frame_map : Option (List (Char × List Int)))
    (frame_ids : Option (List String))
    (nowStr : String)
    (st : PlannerState) (tv : String × String) : Except PyError PlannerState := do
  let product_type := tv.1
  let product_version := tv.2
  let cols := get_applicable_collection_list product_type
  let pvq : Option String := if product_version = "latest" then none else some product_version
  let st1 :=
    if st.start_time.isNone ∧ st.end_time.isSome then
      { st with start_time := some epochStartDefault }
    else st
  let st2 :=
    if st1.start_time.isSome ∧ st1.end_time.isNone then
      { st1 with end_time := some nowStr }
    else st1
  let st3 :=
    match timestamp_queryparams with
    | some ts => ts.foldl (fun s t =>
        let r : SearchRequest :=
          ⟨cols, some product_type, pvq, none, none, none, none, some t, some t, none, none⟩
        { s with requests := s.requests ++ [r], lastNew := some r }) st2
    | none => st2
  let st4 ←
    match complete_orbits with
    | some l =>
        (split_list_into_chunks l MAX_NUM_ORBITS_PER_REQUEST).foldlM
          (completeOrbitChunkStep cols product_type pvq radius lat lon bbox
            st2.start_time st2.end_time) st3
    | none => Except.ok st3
  let st5 ←
    match incomplete_orbits_frame_map with
    | some m =>
        m.foldlM (fun s fo =>
          (split_list_into_chunks fo.2 MAX_NUM_ORBITS_PER_REQUEST).foldlM (fun s c => do
            let p ← orbit_chunk_queryparam c
            let r : SearchRequest :=
              ⟨cols, some product_type, pvq, radius, lat, lon, bbox,
                st2.start_time, st2.end_time, some p, some (String.mk [fo.1])⟩
            Except.ok { s with requests := s.requests ++ [r], lastNew := some r }) s) st4
    | none => Except.ok st4
  if complete_orbits.isNone ∧ incomplete_orbits_frame_map.isNone ∧
      st2.start_time.isSome ∧ st2.end_time.isSome then
    match frame_ids with
    | some fl =>
        let lastAfter := fl.foldl (fun _acc f =>
          some (⟨cols, some product_type, pvq, radius, lat, lon, bbox,
            st2.start_time, st2.end_time, none, some f⟩ : SearchRequest)) st5.lastNew
        match lastAfter with
        | some r =>
            Except.ok { st5 with requests := st5.requests ++ [r], lastNew := lastAfter }
        | none => Except.error PyError.nameError
    | none =>
        let r : SearchRequest :=
          ⟨cols, some product_type, pvq, radius, lat, lon, bbox,
            st2.start_time, st2.end_time, none, none⟩
        Except.ok { st5 with requests := st5.requests ++ [r], lastNew := some r }
  else
    Except.ok st5

/-- `create_list_of_search_requests`: the full planner.  `nowStr` stands
for the formatted value of `pandas.Timestamp.now()` substituted for a
missing end time. -/
def create_list_of_search_requests
    (product_types product_versions : List String)
    (radius lat lon bbox : Option String)
    (start_time end_time : Option String)
    (timestamp_queryparams : Option (List String))
    (complete_orbits : Option (List Int))
    (incomplete_orbits_frame_map : Option (List (Char × List Int)))
    (frame_ids : Option (List String))
    (nowStr : String) : Except PyError (List SearchRequest) := do
  let init : PlannerState := ⟨[], start_time, end_time, none⟩
  let fin ← (product_types.zip product_versions).foldlM
    (plannerStep radius lat lon bbox timestamp_queryparams complete_orbits
      incomplete_orbits_frame_map frame_ids nowStr) init
  Except.ok fin.requests

/-- `get_frame_queryparams`: validates each user-supplied frame letter
(upper-casing it); `None` passes through. -/
def get_frame_queryparams (frame_ids : Option (List String)) :
    Except PyError (Option (List Char)) :=
  match frame_ids with
  | none => Except.ok none
  | some l => do
      let v ← l.mapM get_validated_frame_id
      Except.ok (some v)

/-- `get_orbit_queryparams`: concatenates the explicit orbit list with the
validated orbit range and returns the sorted distinct orbits (an empty
list when no orbit input is given). -/
def get_orbit_queryparams (so eo : Option Int) (orbit_numbers : Option (List Int)) :
    Except PyError (List Int) := do
  let base : List Int := match orbit_numbers with | some l => l | none => []
  let rng ← get_validated_orbit_number_range so eo
  let all := base ++ (match rng with | some r => r | none => [])
  Except.ok (sortedUniqueInt all)

/-- The pre-network planning phase of `main`, in the source's statement
order: selector-combination validation, frame/orbit query-parameter
conversion, orbit-frame tuple assembly, complete/incomplete partitioning,
and search-request creation.  Product names arrive already resolved to
type/version codes and time/space inputs already formatted (those
conversions touch neither the orbit/frame selectors nor the network).
Every network interaction of the script happens strictly after this phase
succeeds, so an `Except.error` here is an exception raised before any
network call. -/
def planSearchRequestsPhase
    (product_types product_versions : List String)
    (radius lat lon bbox : Option String)
    (start_time end_time : Option String)
    (timestamp_queryparams : Option (List String))
    (orbit_numbers : Option (List Int)) (so eo : Option Int)
    (frame_ids : Option (List String))
    (orbit_and_frames : Option (List String))
    (soaf eoaf : Option String)
    (nowStr : String) : Except PyError (List SearchRequest) := do
  validate_combination_of_given_orbit_and_frame_range_inputs soaf eoaf so eo
    orbit_numbers frame_ids
  let fq ← get_frame_queryparams frame_ids
  let oq ← get_orbit_queryparams so eo orbit_numbers
  let t1 := get_orbit_frame_tuple_list_from_separate_orbit_and_frame_lists oq fq
  let t2 ← get_orbit_frame_tuple_list_from_strings soaf eoaf orbit_and_frames t1
  let ci := get_complete_and_incomplete_orbits t2
  create_list_of_search_requests product_types product_versions radius lat lon bbox
    start_time end_time timestamp_queryparams ci.1 ci.2 frame_ids nowStr

/-- Whether an `Except` value is a success. -/
def exceptIsOk : Except ε α → Bool
  | Except.ok _ => true
  | Except.error _ => false

/-- Splits a character string at its last `'/'`: `some (pre, suf)` with
`s = pre ++ '/' :: suf` and `suf` slash-free, or `none` when there is no
slash. -/
def splitAtLastSlash : List Char → Option (List Char × List Char)
  | [] => none
  | c :: cs =>
      match splitAtLastSlash cs with
      | some p => some (c :: p.1, p.2)
      | none => if c = '/' then some ([], cs) else none

/-- `os.path.basename` on a POSIX path: everything after the last slash. -/
def pybasename (p : List Char) : List Char :=
  match splitAtLastSlash p with
  | some pr => pr.2
  | none => p

/-- Removes trailing slashes (`str.rstrip('/')`). -/
def rstripSlash (s : List Char) : List Char :=
  (s.reverse.dropWhile (fun c => c = '/')).reverse

/-- `os.path.dirname` on a POSIX path: the prefix up to the last slash,
with trailing slashes stripped unless the prefix consists of slashes
only. -/
def pydirname (p : List Char) : List Char :=
  match splitAtLastSlash p with
  | none => []
  | some pr =>
      if (pr.1 ++ ['/']).all (fun c => c = '/') then pr.1 ++ ['/']
      else rstripSlash pr.1

/-- `os.path.join(a, b)` for a relative second component. -/
def pyjoin (a b : List Char) : List Char :=
  if b.head? = some '/' then b
  else if a = [] then b
  else if a.getLast? = some '/' then a ++ b
  else a ++ '/' :: b

/-- Python slicing `s[a:b]` (with clamping) on a character list. -/
def pyslice (a b : Nat) (s : List Char) : List Char :=
  (s.drop a).take (b - a)

/-- `safe_parse_timestamp`, specialised to the fixed-width compact form
`YYYYMMDDThhmmss` (optionally followed by `Z`) that occupies the timestamp
slots of EarthCARE file names; the digits are read as one natural number,
whose order coincides with chronological order.  Any other content yields
the minimum-timestamp sentinel, embedded as `0` — the source returns
`pandas.Timestamp.min` instead of failing. -/
def safe_parse_timestamp (s : List Char) : Nat :=
  let core := if s.length = 16 ∧ s.getLast? = some 'Z' then s.dropLast else s
  if core.length = 15 ∧ (core.take 8).all Char.isDigit ∧
      core.getD 8 'x' = 'T' ∧ (core.drop 9).all Char.isDigit then
    digitsToNat (core.take 8 ++ core.drop 9)
  else 0

/-- The fields of `get_product_info_from_path` that the deduplication
uses. -/
structure ProductInfo where
  product_name : List Char
  sensing_start_time : Nat
  processing_start_time : Nat
deriving DecidableEq, Repr

/-- `get_product_info_from_path`, restricted to the three fields consumed
by `drop_duplicate_files`: the file name is the basename cut at its first
dot, the product name is `filename[9:19]`, and the two timestamps are
parsed from `filename[20:36]` and `filename[37:53]`. -/
def get_product_info_from_path (filepath : List Char) : ProductInfo :=
  let filename := (pybasename filepath).takeWhile (fun c => c ≠ '.')
  { product_name := pyslice 9 19 filename
    sensing_start_time := safe_parse_timestamp (pyslice 20 36 filename)
    processing_start_time := safe_parse_timestamp (pyslice 37 53 filename) }

/-- The sort comparator of `drop_duplicate_files`: ascending product name,
ascending sensing start, descending processing start. -/
def fileSortLe (r1 r2 : List Char) : Bool :=
  if (get_product_info_from_path r1).product_name ≠
      (get_product_info_from_path r2).product_name then
    lexLeChar (get_product_info_from_path r1).product_name
      (get_product_info_from_path r2).product_name
  else if (get_product_info_from_path r1).sensing_start_time ≠
      (get_product_info_from_path r2).sensing_start_time then
    decide ((get_product_info_from_path r1).sensing_start_time ≤
      (get_product_info_from_path r2).sensing_start_time)
  else
    decide ((get_product_info_from_path r2).processing_start_time ≤
      (get_product_info_from_path r1).processing_start_time)

/-- The dedup key `(product_name, sensing_start_time)`. -/
def dedupKey (r : List Char) : List Char × Nat :=
  ((get_product_info_from_path r).product_name,
    (get_product_info_from_path r).sensing_start_time)

/-- `DataFrame.drop_duplicates(..., keep='first')`: keeps the first row of
each key, in order. -/
def dedupFirst : List (List Char) → List (List Char)
  | [] => []
  | r :: rs => r :: dedupFirst (rs.filter (fun x => dedupKey x ≠ dedupKey r))
termination_by l => l.length
decreasing_by
  have h := List.length_filter_le (fun x => decide (dedupKey x ≠ dedupKey r)) rs
  simp only [List.length_cons]
  omega

/-- `drop_duplicate_files`: sorts by
`(product_name asc, sensing_start_time asc, processing_start_time desc)`
and keeps the first row of every `(product_name, sensing_start_time)`
key. -/
def drop_duplicate_files (rows : List (List Char)) : List (List Char) :=
  if rows = [] then rows
  else dedupFirst (sortValues fileSortLe rows)

/-- Splits a character string at its last `'.'`: `some (pre, suf)` with
`s = pre ++ '.' :: suf` and `suf` dot-free, or `none` when there is no
dot. -/
def splitAtLastDot : List Char → Option (List Char × List Char)
  | [] => none
  | c :: cs =>
      match splitAtLastDot cs with
      | some p => some (c :: p.1, p.2)
      | none => if c = '.' then some ([], cs) else none

/-- `os.path.splitext` on a slash-free file name: split off the extension
at the last dot, unless every character before that dot is itself a dot
(leading dots of a file name are not an extension). -/
def splitext (s : List Char) : List Char × List Char :=
  match splitAtLastDot s with
  | some pr => if pr.1.all (fun c => c = '.') then (s, []) else (pr.1, '.' :: pr.2)
  | none => (s, [])

/-- The `while ext.lower() == '.zip'` loop of `ensure_single_zip_extension`,
written with a fuel argument that the caller instantiates large enough to
cover every possible number of stripped extensions. -/
def dropZipExtsFuel : Nat → List Char → List Char → List Char
  | 0, base, _ => base
  | fuel + 1, base, ext =>
      if ext.map Char.toLower = ['.', 'z', 'i', 'p'] then
        dropZipExtsFuel fuel (splitext base).1 (splitext base).2
      else base

/-- `ensure_single_zip_extension`: strips every trailing `.zip`/`.ZIP`
extension and appends a single `.ZIP`. -/
def ensure_single_zip_extension (filename : List Char) : List Char :=
  let p := splitext filename
  dropZipExtsFuel (filename.length + 1) p.1 p.2 ++ ['.', 'Z', 'I', 'P']

/-- The directory `unzip_file` extracts into:
`os.path.join(os.path.dirname(filepath), os.path.basename(filepath).split('.')[0])`. -/
def unzipExtractPath (filepath : List Char) : List Char :=
  pyjoin (pydirname filepath) ((pybasename filepath).takeWhile (fun c => c ≠ '.'))

/-- The extracted path the download loop checks: `zip_file_path[0:-4]`. -/
def extractedPathOfZip (zipPath : List Char) : List Char :=
  zipPath.take (zipPath.length - 4)

/-- One archive extension: a dot followed by the three letters of `zip` in
either case. -/
def IsZipExt (e : List Char) : Prop :=
  ∃ z i p, e = ['.', z, i, p] ∧ z.toLower = 'z' ∧ i.toLower = 'i' ∧ p.toLower = 'p'

/-- The concatenation of a list of extensions, outermost extension first
in the list (so the head is the one `splitext` strips first). -/
def flatExts : List (List Char) → List Char
  | [] => []
  | e :: es => flatExts es ++ e

/-- The policy flags of `download`. -/
structure DownloadFlags where
  is_overwrite : Bool
  is_unzip : Bool
  is_delete : Bool
deriving DecidableEq, Repr

/-- The authoritative local filesystem state of one file: whether its
archive path (`zip_file_path`) and its extracted path (`file_path`)
exist. -/
structure FileState where
  zip : Bool
  ext : Bool
deriving DecidableEq, Repr

/-- The outcome of one download request, as decided by the remote server:
a complete successful stream, an HTTP 403, or any other request
exception. -/
inductive DlOutcome where
  | ok
  | err403
  | errOther
deriving DecidableEq, Repr

/-- `try_download = is_overwrite or (not zip_file_exists and not
file_exists)`, evaluated on a fresh filesystem snapshot. -/
def try_download (fl : DownloadFlags) (fs : FileState) : Bool :=
  fl.is_overwrite || (!fs.zip && !fs.ext)

/-- `try_unzip = is_unzip and (is_overwrite or not file_exists)`,
evaluated on a fresh filesystem snapshot. -/
def try_unzip (fl : DownloadFlags) (fs : FileState) : Bool :=
  fl.is_unzip && (fl.is_overwrite || !fs.ext)

/-- `unzip_file` on the file's state: fails when the archive is missing;
on a corrupt archive deletes it when `delete_on_error` is set; on success
the extracted path exists (the extraction directory coincides with the
checked path, see the claim about `unzipExtractPath`) and the archive is
deleted when `delete` is set.  `zipValid` is the oracle for whether
`ZipFile.extractall` succeeds. -/
def unzip_file (zipValid delete delete_on_error : Bool) (fs : FileState) :
    Bool × FileState :=
  if fs.zip = false then (false, fs)
  else if zipValid = false then
    (false, if delete_on_error then { fs with zip := false } else fs)
  else
    let fs2 : FileState := { fs with ext := true }
    if delete then (true, { fs2 with zip := false }) else (true, fs2)

/-- What one iteration of the per-file `for attempt in range(3)` loop did:
the filesystem state it left behind, whether it issued a download request
and/or called `unzip_file`, whether it fully streamed a download
(`download_counter`) or observed a successful extraction
(`unzip_counter`), and whether it ended in `break` (which is when the
source increments the file counter). -/
structure AttemptOut where
  fs : FileState
  dlReq : Bool
  unzipCall : Bool
  dlDone : Bool
  unzipDone : Bool
  breakLoop : Bool
deriving DecidableEq, Repr

/-- One iteration of the retry loop of `download`, statement by statement.
On an HTTP 403 the source assigns `attempt = MAX_DOWNLOAD_ATTEMPTS_PER_FILE`;
rebinding the loop variable of a Python `for attempt in range(...)` loop
does not affect the iteration, and `attempt` is not read again in the same
iteration, so the assignment has no effect and is embedded as a no-op.
Both request exceptions are raised by `raise_for_status` before the output
file is opened, so they leave the archive path untouched. -/
def download_attempt (fl : DownloadFlags) (outcome : DlOutcome) (zipValid : Bool)
    (fs0 : FileState) : AttemptOut :=
  let td := try_download fl fs0
  let tu := try_unzip fl fs0
  if !td && !tu then
    { fs := fs0, dlReq := false, unzipCall := false, dlDone := false,
      unzipDone := false, breakLoop := true }
  else
    -- delete unnecessary zip files
    let fs1 := if fl.is_delete && fs0.ext && fs0.zip then { fs0 with zip := false } else fs0
    -- overwrite files
    let fs2 := if fs1.zip && fl.is_overwrite then { fs1 with zip := false } else fs1
    let fs3 := if fs2.ext && fl.is_overwrite then { fs2 with ext := false } else fs2
    let dl := if td then
        (if outcome = DlOutcome.ok then ({ fs3 with zip := true }, true, true)
         else (fs3, true, false))
      else (fs3, false, false)
    let fs4 := dl.1
    let success1 := if td then fs4.zip else true
    let uz := if tu then
        let r := unzip_file zipValid fl.is_delete true fs4
        (r.2, true, r.1 && r.2.ext, r.2.ext)
      else (fs4, false, success1, false)
    { fs := uz.1, dlReq := dl.2.1, unzipCall := uz.2.1, dlDone := dl.2.2,
      unzipDone := uz.2.2.2, breakLoop := uz.2.2.1 }

/-- The per-file aggregate of the retry loop. -/
structure FileRunAcc where
  fs : FileState
  dlRequests : Nat
  unzipCalls : Nat
  dlCompleted : Nat
  unzipNew : Nat
  handled : Bool
deriving DecidableEq, Repr

/-- Runs the remaining attempts of the per-file retry loop, stopping at
the first `break`.  `outcomes k` and `zipValids k` are the oracles for
attempt `k`. -/
def runFileGo (fl : DownloadFlags) (outcomes : Nat → DlOutcome)
    (zipValids : Nat → Bool) : Nat → Nat → FileState → FileRunAcc
  | 0, _, fs =>
      { fs := fs, dlRequests := 0, unzipCalls := 0, dlCompleted := 0,
        unzipNew := 0, handled := false }
  | n + 1, idx, fs =>
      let a := download_attempt fl (outcomes idx) (zipValids idx) fs
      if a.breakLoop then
        { fs := a.fs, dlRequests := a.dlReq.toNat, unzipCalls := a.unzipCall.toNat,
          dlCompleted := a.dlDone.toNat, unzipNew := a.unzipDone.toNat, handled := true }
      else
        let rest := runFileGo fl outcomes zipValids n (idx + 1) a.fs
        { fs := rest.fs, dlRequests := a.dlReq.toNat + rest.dlRequests,
          unzipCalls := a.unzipCall.toNat + rest.unzipCalls,
          dlCompleted := a.dlDone.toNat + rest.dlCompleted,
          unzipNew := a.unzipDone.toNat + rest.unzipNew, handled := rest.handled }

/-- The whole `for attempt in range(MAX_DOWNLOAD_ATTEMPTS_PER_FILE)` loop
for one file. -/
def download_file (fl : DownloadFlags) (outcomes : Nat → DlOutcome)
    (zipValids : Nat → Bool) (fs : FileState) : FileRunAcc :=
  runFileGo fl outcomes zipValids MAX_DOWNLOAD_ATTEMPTS_PER_FILE 0 fs

/-- One row of the result dataframe handed to `download`, together with
the oracles for its download attempts. -/
structure FileJob where
  fs : FileState
  outcomes : Nat → DlOutcome
  zipValids : Nat → Bool

/-- The network and extraction activity of one `download` run. -/
structure DownloadTotals where
  authRequests : Nat
  logoutRequests : Nat
  fileRequests : Nat
  unzipCalls : Nat
  dlCompleted : Nat
  unzipNew : Nat
deriving DecidableEq, Repr

/-- The per-file contribution of one row of a server group to the run
totals. -/
def downloadFileStep (fl : DownloadFlags) (a : DownloadTotals) (job : FileJob) :
    DownloadTotals :=
  let r := download_file fl job.outcomes job.zipValids job.fs
  { a with
    fileRequests := a.fileRequests + r.dlRequests
    unzipCalls := a.unzipCalls + r.unzipCalls
    dlCompleted := a.dlCompleted + r.dlCompleted
    unzipNew := a.unzipNew + r.unzipNew }

/-- One server group of `download`: login (3 requests), the per-file
loops, logout (2 requests). -/
def downloadGroupStep (fl : DownloadFlags) (acc : DownloadTotals) (g : List FileJob) :
    DownloadTotals :=
  let acc1 := { acc with authRequests := acc.authRequests + 3 }
  let acc2 := g.foldl (downloadFileStep fl) acc1
  { acc2 with logoutRequests := acc2.logoutRequests + 2 }

/-- `download`: for each server group, the three login-flow requests
(access GET, credential POST, SAML-redirect POST), then the per-file retry
loops, then the two logout requests.  The input is the result dataframe
already grouped by server (pandas `groupby` yields only non-empty
groups). -/
def download_run (fl : DownloadFlags) (groups : List (List FileJob)) : DownloadTotals :=
  groups.foldl (downloadGroupStep fl) ⟨0, 0, 0, 0, 0, 0⟩

/-- All HTTP requests a `download` run makes: login flow, file downloads,
logout. -/
def DownloadTotals.networkRequests (t : DownloadTotals) : Nat :=
  t.authRequests + t.logoutRequests + t.fileRequests

/-! ## Theorems -/

theorem download_attempt_skip (fl : DownloadFlags) (o : DlOutcome) (z : Bool)
    (fs : FileState) (h1 : try_download fl fs = false) (h2 : try_unzip fl fs = false) :
    download_attempt fl o z fs = ⟨fs, false, false, false, false, true⟩ := by
  unfold download_attempt
  rw [h1, h2]
  simp

theorem runFileGo_skip (fl : DownloadFlags) (outcomes : Nat → DlOutcome)
    (zipValids : Nat → Bool) (fs : FileState) (n idx : Nat) (hn : 0 < n)
    (h1 : try_download fl fs = false) (h2 : try_unzip fl fs = false) :
    runFileGo fl outcomes zipValids n idx fs = ⟨fs, 0, 0, 0, 0, true⟩ := by
  cases n with
  | zero => exact absurd hn (by omega)
  | succ k =>
      rw [runFileGo, download_attempt_skip fl _ _ fs h1 h2]
      simp [Bool.toNat]

theorem download_file_skip (fl : DownloadFlags) (outcomes : Nat → DlOutcome)
    (zipValids : Nat → Bool) (fs : FileState)
    (h1 : try_download fl fs = false) (h2 : try_unzip fl fs = false) :
    download_file fl outcomes zipValids fs = ⟨fs, 0, 0, 0, 0, true⟩ :=
  runFileGo_skip fl outcomes zipValids fs _ 0 (by norm_num [MAX_DOWNLOAD_ATTEMPTS_PER_FILE]) h1 h2

/-- C7: at the top of every download attempt the orchestrator recomputes
`try_download = overwrite OR (zip absent AND extracted absent)` and
`try_unzip = unzip_requested AND (overwrite OR extracted absent)` from the
fresh filesystem state, and when both are false the file is counted as
handled (the loop breaks with the counter incremented) without issuing any
download request, extraction call, or further retry attempt, leaving the
filesystem untouched. -/
theorem claim7_skip_semantics (fl : DownloadFlags) (outcomes : Nat → DlOutcome)
    (zipValids : Nat → Bool) (fs : FileState)
    (h1 : try_download fl fs = false) (h2 : try_unzip fl fs = false) :
    try_download fl fs = (fl.is_overwrite || (!fs.zip && !fs.ext)) ∧
    try_unzip fl fs = (fl.is_unzip && (fl.is_overwrite || !fs.ext)) ∧
    download_file fl outcomes zipValids fs = ⟨fs, 0, 0, 0, 0, true⟩ :=
  ⟨rfl, rfl, download_file_skip fl outcomes zipValids fs h1 h2⟩

/-- Witness for C7: a non-overwriting, non-unzipping run over a file whose
archive and extracted outputs both exist downloads and extracts nothing and
marks the file handled. -/
theorem claim7_skip_semantics_witness :
    try_download ⟨false, false, false⟩ ⟨true, true⟩ = false ∧
    try_unzip ⟨false, false, false⟩ ⟨true, true⟩ = false ∧
    download_file ⟨false, false, false⟩ (fun _ => DlOutcome.ok) (fun _ => true)
      ⟨true, true⟩ = ⟨⟨true, true⟩, 0, 0, 0, 0, true⟩ :=
  ⟨by decide, by decide,
    (claim7_skip_semantics ⟨false, false, false⟩ (fun _ => DlOutcome.ok)
      (fun _ => true) ⟨true, true⟩ (by decide) (by decide)).2.2⟩

/-- C1 (code bug): with an empty local filesystem, `overwrite` off and a
server that answers HTTP 403, the retry loop issues a download request on
every one of its 3 attempts — the source's `attempt =
MAX_DOWNLOAD_ATTEMPTS_PER_FILE` assignment does not terminate a Python
`for` loop, so the claim's "exactly one request" does not hold; the file
ends unhandled (failed) and the run continues with the next file. -/
theorem claim1_403_retries :
    (download_file ⟨false, true, true⟩ (fun _ => DlOutcome.err403) (fun _ => true)
      ⟨false, false⟩).dlRequests = 3 ∧
    (download_file ⟨false, true, true⟩ (fun _ => DlOutcome.err403) (fun _ => true)
      ⟨false, false⟩).handled = false := by
  exact ⟨rfl, rfl⟩

theorem downloadFileStep_skip (fl : DownloadFlags) (a : DownloadTotals) (job : FileJob)
    (hov : fl.is_overwrite = false) (hz : job.fs.zip = true) (he : job.fs.ext = true) :
    (downloadFileStep fl a job).fileRequests = a.fileRequests ∧
    (downloadFileStep fl a job).unzipCalls = a.unzipCalls := by
  have h1 : try_download fl job.fs = false := by
    unfold try_download
    rw [hov, hz]
    simp
  have h2 : try_unzip fl job.fs = false := by
    unfold try_unzip
    rw [hov, he]
    simp
  unfold downloadFileStep
  rw [download_file_skip fl job.outcomes job.zipValids job.fs h1 h2]
  simp

theorem groupFold_skip (fl : DownloadFlags) (hov : fl.is_overwrite = false) :
    ∀ (g : List FileJob) (a : DownloadTotals),
    (∀ j ∈ g, j.fs.zip = true ∧ j.fs.ext = true) →
    (g.foldl (downloadFileStep fl) a).fileRequests = a.fileRequests ∧
    (g.foldl (downloadFileStep fl) a).unzipCalls = a.unzipCalls := by
  intro g
  induction g with
  | nil => intro a _; exact ⟨rfl, rfl⟩
  | cons j t ih =>
      intro a h
      have hj := h j (List.mem_cons_self j t)
      have hstep := downloadFileStep_skip fl a j hov hj.1 hj.2
      have ht := ih (downloadFileStep fl a j) (fun x hx => h x (List.mem_cons_of_mem j hx))
      simp only [List.foldl_cons]
      exact ⟨ht.1.trans hstep.1, ht.2.trans hstep.2⟩

theorem downloadGroupStep_skip (fl : DownloadFlags) (acc : DownloadTotals)
    (g : List FileJob) (hov : fl.is_overwrite = false)
    (h : ∀ j ∈ g, j.fs.zip = true ∧ j.fs.ext = true) :
    (downloadGroupStep fl acc g).fileRequests = acc.fileRequests ∧
    (downloadGroupStep fl acc g).unzipCalls = acc.unzipCalls := by
  unfold downloadGroupStep
  have := groupFold_skip fl hov g { acc with authRequests := acc.authRequests + 3 } h
  simpa using this

theorem runFold_skip (fl : DownloadFlags) (hov : fl.is_overwrite = false) :
    ∀ (groups : List (List FileJob)) (acc : DownloadTotals),
    (∀ g ∈ groups, ∀ j ∈ g, j.fs.zip = true ∧ j.fs.ext = true) →
    (groups.foldl (downloadGroupStep fl) acc).fileRequests = acc.fileRequests ∧
    (groups.foldl (downloadGroupStep fl) acc).unzipCalls = acc.unzipCalls := by
  intro groups
  induction groups with
  | nil => intro acc _; exact ⟨rfl, rfl⟩
  | cons g t ih =>
      intro acc h
      have hg := downloadGroupStep_skip fl acc g hov (h g (List.mem_cons_self g t))
      have ht := ih (downloadGroupStep fl acc g) (fun x hx => h x (List.mem_cons_of_mem g hx))
      simp only [List.foldl_cons]
      exact ⟨ht.1.trans hg.1, ht.2.trans hg.2⟩

/-- C4 (counterexample): a `download` run over one file whose archive and
extracted paths both exist, with `overwrite` off, still performs network
requests — the per-server login and logout requests are issued before and
after the (entirely skipped) per-file loop — so the run does not perform
"zero network requests and zero extraction calls" as the claim states. -/
theorem claim4_counterexample :
    ¬ ((download_run ⟨false, true, true⟩
        [[⟨⟨true, true⟩, fun _ => DlOutcome.ok, fun _ => true⟩]]).networkRequests = 0 ∧
      (download_run ⟨false, true, true⟩
        [[⟨⟨true, true⟩, fun _ => DlOutcome.ok, fun _ => true⟩]]).unzipCalls = 0) := by
  intro h
  have h5 : (download_run ⟨false, true, true⟩
      [[⟨⟨true, true⟩, fun _ => DlOutcome.ok, fun _ => true⟩]]).networkRequests = 5 := rfl
  rw [h.1] at h5
  exact absurd h5 (by norm_num)

/-- C4 (amended): for every result set and every filesystem state in which
both the archive path and the extracted path of every file already exist,
running the download orchestrator with `overwrite` off performs zero
file-download requests and zero extraction calls (only the per-server
authentication and logout requests remain), so a second identical run after
a successful first run downloads and extracts nothing. -/
theorem claim4_second_run_idempotent (fl : DownloadFlags)
    (groups : List (List FileJob)) (hov : fl.is_overwrite = false)
    (hall : ∀ g ∈ groups, ∀ j ∈ g, j.fs.zip = true ∧ j.fs.ext = true) :
    (download_run fl groups).fileRequests = 0 ∧
    (download_run fl groups).unzipCalls = 0 := by
  unfold download_run
  exact runFold_skip fl hov groups ⟨0, 0, 0, 0, 0, 0⟩ hall

/-- Witness for C4 (amended): the concrete one-file everything-exists run
issues no file-download request and no extraction call. -/
theorem claim4_second_run_idempotent_witness :
    (download_run ⟨false, true, true⟩
      [[⟨⟨true, true⟩, fun _ => DlOutcome.ok, fun _ => true⟩]]).fileRequests = 0 ∧
    (download_run ⟨false, true, true⟩
      [[⟨⟨true, true⟩, fun _ => DlOutcome.ok, fun _ => true⟩]]).unzipCalls = 0 :=
  claim4_second_run_idempotent ⟨false, true, true⟩
    [[⟨⟨true, true⟩, fun _ => DlOutcome.ok, fun _ => true⟩]] rfl
    (by
      intro g hg j hj
      simp only [List.mem_singleton] at hg
      subst hg
      simp only [List.mem_singleton] at hj
      subst hj
      exact ⟨rfl, rfl⟩)

/-- C3 (code bug): evaluating the orbit-and-frame range expansion.  For a
range that stays on one orbit (`00010F` to `00010H`) the source returns no
pairs at all — it sizes the orbit list from the frame list while the
latter is still empty — instead of the claimed frame range F,G,H on orbit
10.  For the multi-orbit example `00010F` to `00012C` it returns the
claimed 14 pairs (F-H on orbit 10, A-C on orbit 12, all 8 frames on orbit
11). -/
theorem claim3_range_expansion_eval :
    get_orbit_frame_tuple_list_from_strings (some ("00010F")) (some ("00010H"))
      none none = Except.ok none ∧
    get_orbit_frame_tuple_list_from_strings (some ("00010F")) (some ("00012C"))
      none none =
      Except.ok (some [((10 : Int), 'F'), (10, 'G'), (10, 'H'),
        (12, 'A'), (12, 'B'), (12, 'C'),
        (11, 'A'), (11, 'B'), (11, 'C'), (11, 'D'),
        (11, 'E'), (11, 'F'), (11, 'G'), (11, 'H')]) := by
  exact ⟨rfl, rfl⟩

/-- C2 (code bug): evaluating the planner on one product type, a closed
time window, no orbit information and the two plain frame letters A and B.
The source appends `new_request` once, outside the `for frame_id in
frame_ids` loop, so only a single request — carrying the last frame letter
B — is emitted instead of the claimed one request per frame letter. -/
theorem claim2_one_request_per_frame_eval :
    create_list_of_search_requests ["ATL_NOM_1B"] ["latest"] none none none none
      (some ("2024-08-01T00:00:00Z")) (some ("2024-08-02T00:00:00Z")) none none none
      (some ["A", "B"]) ("2025-01-01T00:00:00Z") =
    Except.ok [⟨["EarthCAREL0L1Products", "EarthCAREL1InstChecked", "EarthCAREL1Validated"],
      some ("ATL_NOM_1B"), none, none, none, none, none,
      some ("2024-08-01T00:00:00Z"), some ("2024-08-02T00:00:00Z"), none, some ("B")⟩] := by
  exact rfl

theorem insertUniqueInt_mem (a x : Int) : ∀ l, x ∈ insertUniqueInt a l ↔ x = a ∨ x ∈ l := by
  intro l
  induction l with
  | nil => simp [insertUniqueInt]
  | cons b t ih =>
      simp only [insertUniqueInt]
      split
      · simp only [List.mem_cons]
      · split
        · next h1 h2 =>
            subst h2
            simp only [List.mem_cons]
            tauto
        · rw [List.mem_cons, List.mem_cons, ih]
          tauto

theorem sortedUniqueInt_mem (x : Int) : ∀ l, x ∈ sortedUniqueInt l ↔ x ∈ l := by
  intro l
  induction l with
  | nil => simp [sortedUniqueInt]
  | cons a t ih =>
      simp only [sortedUniqueInt, List.foldr_cons] at *
      rw [insertUniqueInt_mem]
      simp only [List.mem_cons, ih]

theorem framesOfOrbit_ne_nil_mem (pairs : List (Int × Char)) (o : Int)
    (h : framesOfOrbit pairs o ≠ []) : o ∈ pairs.map Prod.fst := by
  unfold framesOfOrbit at h
  have hf : pairs.filter (fun p => decide (p.1 = o)) ≠ [] := by
    intro hnil
    rw [hnil] at h
    exact h rfl
  rcases List.exists_mem_of_ne_nil _ hf with ⟨p, hp⟩
  have hp2 := List.mem_filter.1 hp
  exact List.mem_map.2 ⟨p, hp2.1, of_decide_eq_true hp2.2⟩

/-- C5 (amended): for every non-empty input list of (orbit, frame) pairs,
the partition returned by `get_complete_and_incomplete_orbits` satisfies:
an orbit number appears in the complete-orbits list if and only if the
letters paired with it, sorted with multiplicity, spell exactly `ABCDEFGH`
(for duplicate-free inputs this coincides with the letter set being all 8
letters, but a duplicated pair prevents completeness); and no orbit number
appears both in the complete list and in any frame's list of the
incomplete per-frame map. -/
theorem claim5_partition (pairs : List (Int × Char)) (o : Int) (hne : pairs ≠ []) :
    ∃ co im, get_complete_and_incomplete_orbits_list pairs = (some co, some im) ∧
      (o ∈ co ↔ sortChars (framesOfOrbit pairs o) = FRAMES) ∧
      (∀ f l', o ∈ co → (f, l') ∈ im → o ∉ l') := by
  unfold get_complete_and_incomplete_orbits_list
  rw [if_neg hne]
  refine ⟨_, _, rfl, ?_, ?_⟩
  · constructor
    · intro h
      have hm := (List.mem_filter.1 h).2
      unfold isCompleteOrbit at hm
      exact of_decide_eq_true hm
    · intro h
      refine List.mem_filter.2 ⟨?_, ?_⟩
      · unfold orbitKeys
        rw [sortedUniqueInt_mem]
        apply framesOfOrbit_ne_nil_mem
        intro hnil
        rw [hnil] at h
        exact absurd h (by decide)
      · unfold isCompleteOrbit
        exact decide_eq_true h
  · intro f l' hco him ho
    rcases List.mem_map.1 him with ⟨f0, _, heq⟩
    have hl' : ((pairs.filter (fun p =>
        ((orbitKeys pairs).filter (fun x => !(isCompleteOrbit pairs x))).contains p.1)).filter
          (fun p => p.2 = f0)).map Prod.fst = l' := by
      injection heq
    rw [← hl'] at ho
    rcases List.mem_map.1 ho with ⟨p, hpmem, hp1⟩
    have hp2 := List.mem_filter.1 hpmem
    have hp3 := List.mem_filter.1 hp2.1
    have hcontains : p.1 ∈ (orbitKeys pairs).filter (fun x => !(isCompleteOrbit pairs x)) := by
      exact List.mem_of_elem_eq_true hp3.2
    have hnotc : isCompleteOrbit pairs p.1 = false := by
      have hb := (List.mem_filter.1 hcontains).2
      simpa using hb
    have hc : isCompleteOrbit pairs o = true := (List.mem_filter.1 hco).2
    rw [hp1] at hnotc
    rw [hnotc] at hc
    exact absurd hc (by decide)

/-- Witness for C5 (amended): the partition of a list with one complete
orbit (1, all 8 frames) and one incomplete orbit (2, frame A only). -/
theorem claim5_partition_witness :
    ∃ co im, get_complete_and_incomplete_orbits_list
        [((1 : Int), 'A'), (1, 'B'), (1, 'C'), (1, 'D'), (1, 'E'), (1, 'F'), (1, 'G'),
          (1, 'H'), (2, 'A')] = (some co, some im) ∧
      ((1 : Int) ∈ co ↔ sortChars (framesOfOrbit
        [((1 : Int), 'A'), (1, 'B'), (1, 'C'), (1, 'D'), (1, 'E'), (1, 'F'), (1, 'G'),
          (1, 'H'), (2, 'A')] 1) = FRAMES) ∧
      (∀ f l', (1 : Int) ∈ co → (f, l') ∈ im → (1 : Int) ∉ l') :=
  claim5_partition _ 1 (by decide)

/-- C5 (counterexample): with the duplicate pair (1, A) present, the
letter set of orbit 1 equals all 8 letters, yet the source classifies
orbit 1 as incomplete (its sorted letter string is `AABCDEFGH`, not
`ABCDEFGH`), so the claimed set-based if-and-only-if fails on inputs with
duplicate pairs. -/
theorem claim5_counterexample :
    sortChars ((framesOfOrbit [((1 : Int), 'A'), (1, 'A'), (1, 'B'), (1, 'C'), (1, 'D'),
        (1, 'E'), (1, 'F'), (1, 'G'), (1, 'H')] 1).dedup) = FRAMES ∧
    (get_complete_and_incomplete_orbits_list [((1 : Int), 'A'), (1, 'A'), (1, 'B'), (1, 'C'),
        (1, 'D'), (1, 'E'), (1, 'F'), (1, 'G'), (1, 'H')]).1 = some [] := by
  exact ⟨rfl, rfl⟩

/-- C6: for two found-product rows whose filenames parse to the same
product name and sensing start time but different processing start times,
`drop_duplicate_files` keeps exactly the row with the later processing
start time and removes the other, whichever order the rows arrive in. -/
theorem claim6_keep_latest (f1 f2 : List Char)
    (hpn : (get_product_info_from_path f1).product_name =
      (get_product_info_from_path f2).product_name)
    (hsst : (get_product_info_from_path f1).sensing_start_time =
      (get_product_info_from_path f2).sensing_start_time)
    (hpst : (get_product_info_from_path f1).processing_start_time <
      (get_product_info_from_path f2).processing_start_time) :
    drop_duplicate_files [f1, f2] = [f2] ∧ drop_duplicate_files [f2, f1] = [f2] := by
  have hkey : dedupKey f1 = dedupKey f2 := by
    unfold dedupKey
    rw [hpn, hsst]
  have hle12 : fileSortLe f1 f2 = false := by
    unfold fileSortLe
    rw [if_neg (fun hcon => hcon hpn), if_neg (fun hcon => hcon hsst)]
    exact decide_eq_false (by omega)
  have hle21 : fileSortLe f2 f1 = true := by
    unfold fileSortLe
    rw [if_neg (fun hcon => hcon hpn.symm), if_neg (fun hcon => hcon hsst.symm)]
    exact decide_eq_true (le_of_lt hpst)
  have hded : dedupFirst [f2, f1] = [f2] := by
    rw [dedupFirst]
    have hfil : [f1].filter (fun x => dedupKey x ≠ dedupKey f2) = [] := by
      simp [hkey]
    rw [hfil, dedupFirst]
  constructor
  · unfold drop_duplicate_files
    rw [if_neg (by simp)]
    simp only [sortValues, insertSorted, hle12]
    simpa using hded
  · unfold drop_duplicate_files
    rw [if_neg (by simp)]
    simp only [sortValues, insertSorted, hle21]
    simpa using hded

/-- Witness for C6: two concrete EarthCARE filenames sharing product name
`ATL_NOM_1B` and sensing start 2024-08-06T09:58:57Z, with different
processing starts; the row processed on 2024-08-07 is kept in either input
order. -/
theorem claim6_keep_latest_witness :
    drop_duplicate_files
      [("ECA_EXAE_ATL_NOM_1B_20240806T095857Z_20240806T112752Z_01666E.h5").data,
       ("ECA_EXAE_ATL_NOM_1B_20240806T095857Z_20240807T000000Z_01666E.h5").data] =
      [("ECA_EXAE_ATL_NOM_1B_20240806T095857Z_20240807T000000Z_01666E.h5").data] ∧
    drop_duplicate_files
      [("ECA_EXAE_ATL_NOM_1B_20240806T095857Z_20240807T000000Z_01666E.h5").data,
       ("ECA_EXAE_ATL_NOM_1B_20240806T095857Z_20240806T112752Z_01666E.h5").data] =
      [("ECA_EXAE_ATL_NOM_1B_20240806T095857Z_20240807T000000Z_01666E.h5").data] :=
  claim6_keep_latest
    (("ECA_EXAE_ATL_NOM_1B_20240806T095857Z_20240806T112752Z_01666E.h5").data)
    (("ECA_EXAE_ATL_NOM_1B_20240806T095857Z_20240807T000000Z_01666E.h5").data)
    (by decide) (by decide) (by decide)

theorem splitChunksGo_flatten (n : Nat) :
    ∀ (fuel : Nat) (l : List α), l.length ≤ fuel →
      (splitChunksGo (n + 1) fuel l).flatten = l := by
  intro fuel
  induction fuel with
  | zero =>
      intro l h
      have hl : l = [] := List.eq_nil_of_length_eq_zero (by omega)
      subst hl
      rfl
  | succ f ih =>
      intro l h
      cases l with
      | nil => rfl
      | cons a t =>
          show ((a :: t).take (n + 1) ::
            splitChunksGo (n + 1) f ((a :: t).drop (n + 1))).flatten = a :: t
          rw [List.flatten_cons, ih ((a :: t).drop (n + 1)) ?_, List.take_append_drop]
          simp only [List.length_drop, List.length_cons] at h ⊢
          omega

theorem splitChunksGo_length (n : Nat) :
    ∀ (fuel : Nat) (l : List α), l.length ≤ fuel →
      (splitChunksGo (n + 1) fuel l).length = (l.length + n) / (n + 1) := by
  intro fuel
  induction fuel with
  | zero =>
      intro l h
      have hl : l = [] := List.eq_nil_of_length_eq_zero (by omega)
      subst hl
      exact (Nat.div_eq_of_lt (by omega)).symm
  | succ f ih =>
      intro l h
      cases l with
      | nil =>
          simp only [List.length_nil, Nat.zero_add]
          exact (Nat.div_eq_of_lt (by omega)).symm
      | cons a t =>
          show ((a :: t).take (n + 1) ::
            splitChunksGo (n + 1) f ((a :: t).drop (n + 1))).length = _
          simp only [List.length_cons]
          rw [ih ((a :: t).drop (n + 1)) ?_]
          · simp only [List.length_drop, List.length_cons]
            rcases le_or_lt n t.length with hle | hlt
            · have he : t.length + 1 - (n + 1) = t.length - n := by omega
              rw [he, Nat.sub_add_cancel hle]
              have h2 : t.length + 1 + n = t.length + (n + 1) := by omega
              rw [h2, Nat.add_div_right _ (Nat.succ_pos n)]
            · have h1 : t.length + 1 - (n + 1) = 0 := by omega
              rw [h1]
              have h2 : (0 + n) / (n + 1) = 0 := Nat.div_eq_of_lt (by omega)
              rw [h2]
              have h3 : (t.length + 1 + n) / (n + 1) = 1 := by
                apply Nat.div_eq_of_lt_le <;> omega
              rw [h3]
          · simp only [List.length_drop, List.length_cons] at h ⊢
            omega

theorem splitChunksGo_size (n : Nat) :
    ∀ (fuel : Nat) (l : List α), ∀ c ∈ splitChunksGo (n + 1) fuel l, c.length ≤ n + 1 := by
  intro fuel
  induction fuel with
  | zero =>
      intro l c hc
      have h0 : splitChunksGo (n + 1) 0 l = ([] : List (List α)) := rfl
      rw [h0] at hc
      exact absurd hc (List.not_mem_nil c)
  | succ f ih =>
      intro l c hc
      cases l with
      | nil =>
          have h0 : splitChunksGo (n + 1) (f + 1) ([] : List α) = [] := rfl
          rw [h0] at hc
          exact absurd hc (List.not_mem_nil c)
      | cons a t =>
          have hc2 : c ∈ (a :: t).take (n + 1) ::
              splitChunksGo (n + 1) f ((a :: t).drop (n + 1)) := hc
          rcases List.mem_cons.1 hc2 with h | h
          · subst h
            exact List.length_take_le (n + 1) (a :: t)
          · exact ih ((a :: t).drop (n + 1)) c h

theorem split_chunks_join (n : Nat) :
    ∀ (k : Nat) (l : List α), l.length = k →
      (split_list_into_chunks l (n + 1)).flatten = l := by
  intro _ l _
  unfold split_list_into_chunks
  rw [if_neg (Nat.succ_ne_zero n)]
  exact splitChunksGo_flatten n l.length l (le_refl _)

theorem split_chunks_length (n : Nat) :
    ∀ (k : Nat) (l : List α), l.length = k →
      (split_list_into_chunks l (n + 1)).length = (l.length + n) / (n + 1) := by
  intro _ l _
  unfold split_list_into_chunks
  rw [if_neg (Nat.succ_ne_zero n)]
  exact splitChunksGo_length n l.length l (le_refl _)

theorem split_chunks_size (n : Nat) :
    ∀ (k : Nat) (l : List α), l.length = k →
      ∀ c ∈ split_list_into_chunks l (n + 1), c.length ≤ n + 1 := by
  intro _ l _ c hc
  unfold split_list_into_chunks at hc
  rw [if_neg (Nat.succ_ne_zero n)] at hc
  exact splitChunksGo_size n l.length l c hc

theorem mem_of_mem_chunks (n : Nat) (l c : List α) (x : α)
    (hc : c ∈ split_list_into_chunks l (n + 1)) (hx : x ∈ c) : x ∈ l := by
  rw [← split_chunks_join n l.length l rfl]
  exact List.mem_flatten.2 ⟨c, hc, hx⟩

theorem mapM_validated_orbits (l : List Int) (h : ∀ o ∈ l, 0 ≤ o ∧ o ≤ 99999) :
    l.mapM get_validated_orbit_number = Except.ok l := by
  induction l with
  | nil => rfl
  | cons a t ih =>
      rw [List.mapM_cons]
      have ha : get_validated_orbit_number a = Except.ok a := by
        unfold get_validated_orbit_number
        rw [if_neg]
        have hb := h a (List.mem_cons_self a t)
        omega
      rw [ha, ih (fun o ho => h o (List.mem_cons_of_mem a ho))]
      rfl

theorem orbit_chunk_queryparam_ok (c : List Int) (h : ∀ o ∈ c, 0 ≤ o ∧ o ≤ 99999) :
    orbit_chunk_queryparam c = Except.ok (orbit_chunk_str c) := by
  unfold orbit_chunk_queryparam orbit_chunk_str
  rw [mapM_validated_orbits c h]
  rfl

theorem completeOrbitChunkStep_ok (cols : List String) (pt : String)
    (pvq radius lat lon bbox st_t et_t : Option String) (s : PlannerState) (c : List Int)
    (h : ∀ o ∈ c, 0 ≤ o ∧ o ≤ 99999) :
    completeOrbitChunkStep cols pt pvq radius lat lon bbox st_t et_t s c =
      Except.ok ⟨s.requests ++ [completeChunkRequest cols pt pvq radius lat lon bbox st_t et_t c],
        s.start_time, s.end_time,
        some (completeChunkRequest cols pt pvq radius lat lon bbox st_t et_t c)⟩ := by
  unfold completeOrbitChunkStep completeChunkRequest
  rw [orbit_chunk_queryparam_ok c h]
  rfl

theorem completeOrbitsFold_ok (cols : List String) (pt : String)
    (pvq radius lat lon bbox st_t et_t : Option String) :
    ∀ (chunks : List (List Int)) (s : PlannerState),
    (∀ c ∈ chunks, ∀ o ∈ c, 0 ≤ o ∧ o ≤ 99999) →
    ∃ ln, chunks.foldlM (completeOrbitChunkStep cols pt pvq radius lat lon bbox st_t et_t) s =
      Except.ok ⟨s.requests ++
          chunks.map (completeChunkRequest cols pt pvq radius lat lon bbox st_t et_t),
        s.start_time, s.end_time, ln⟩ := by
  intro chunks
  induction chunks with
  | nil =>
      intro s _
      refine ⟨s.lastNew, ?_⟩
      cases s
      simp only [List.foldlM_nil, List.map_nil, List.append_nil]
      rfl
  | cons c cs ih =>
      intro s h
      rw [List.foldlM_cons,
        completeOrbitChunkStep_ok cols pt pvq radius lat lon bbox st_t et_t s c
          (h c (List.mem_cons_self c cs))]
      obtain ⟨ln, hln⟩ := ih
        ⟨s.requests ++ [completeChunkRequest cols pt pvq radius lat lon bbox st_t et_t c],
          s.start_time, s.end_time,
          some (completeChunkRequest cols pt pvq radius lat lon bbox st_t et_t c)⟩
        (fun x hx => h x (List.mem_cons_of_mem c hx))
      refine ⟨ln, ?_⟩
      show cs.foldlM (completeOrbitChunkStep cols pt pvq radius lat lon bbox st_t et_t) _ = _
      rw [hln]
      simp

theorem planner_complete_chunks (pt nowStr : String) (l : List Int)
    (hv : ∀ o ∈ l, 0 ≤ o ∧ o ≤ 99999) :
    create_list_of_search_requests [pt] ["latest"] none none none none none none none
      (some l) none none nowStr =
    Except.ok ((split_list_into_chunks l MAX_NUM_ORBITS_PER_REQUEST).map
      (completeChunkRequest (get_applicable_collection_list pt) pt none none none none
        none none none)) := by
  have hc : ∀ c ∈ split_list_into_chunks l MAX_NUM_ORBITS_PER_REQUEST,
      ∀ o ∈ c, 0 ≤ o ∧ o ≤ 99999 := by
    intro c hcmem o ho
    have h50 : MAX_NUM_ORBITS_PER_REQUEST = 49 + 1 := rfl
    rw [h50] at hcmem
    exact hv o (mem_of_mem_chunks 49 l c o hcmem ho)
  obtain ⟨ln, hln⟩ := completeOrbitsFold_ok (get_applicable_collection_list pt) pt none
    none none none none none none (split_list_into_chunks l MAX_NUM_ORBITS_PER_REQUEST)
    ⟨[], none, none, none⟩ hc
  unfold create_list_of_search_requests plannerStep
  simp [hln]
  rfl

/-- C8: for every non-empty list of valid complete orbits, the planner
emits, per product type/version pair, exactly `ceil(n / 50)` search
requests for that orbit set — one per chunk, in order — where each chunk
holds at most `MAX_NUM_ORBITS_PER_REQUEST = 50` orbits and the
concatenation of the chunks in order equals the input orbit list. -/
theorem claim8_chunking (pt nowStr : String) (l : List Int) (_hne : l ≠ [])
    (hv : ∀ o ∈ l, 0 ≤ o ∧ o ≤ 99999) :
    create_list_of_search_requests [pt] ["latest"] none none none none none none none
        (some l) none none nowStr =
      Except.ok ((split_list_into_chunks l MAX_NUM_ORBITS_PER_REQUEST).map
        (completeChunkRequest (get_applicable_collection_list pt) pt none none none none
          none none none)) ∧
    (split_list_into_chunks l MAX_NUM_ORBITS_PER_REQUEST).length =
      (l.length + (MAX_NUM_ORBITS_PER_REQUEST - 1)) / MAX_NUM_ORBITS_PER_REQUEST ∧
    (∀ c ∈ split_list_into_chunks l MAX_NUM_ORBITS_PER_REQUEST,
      c.length ≤ MAX_NUM_ORBITS_PER_REQUEST) ∧
    (split_list_into_chunks l MAX_NUM_ORBITS_PER_REQUEST).flatten = l := by
  have h50 : MAX_NUM_ORBITS_PER_REQUEST = 49 + 1 := rfl
  refine ⟨planner_complete_chunks pt nowStr l hv, ?_, ?_, ?_⟩
  · rw [h50]
    exact split_chunks_length 49 l.length l rfl
  · rw [h50]
    exact split_chunks_size 49 l.length l rfl
  · rw [h50]
    exact split_chunks_join 49 l.length l rfl

/-- Witness for C8: 120 valid complete orbits produce exactly 3 requests
(chunks of 50, 50 and 20 orbits) whose chunks concatenate back to the
input. -/
theorem claim8_chunking_witness :
    create_list_of_search_requests ["ATL_NOM_1B"] ["latest"] none none none none none none
        none (some ((List.range 120).map (fun k => (k : Int)))) none none
        ("2025-01-01T00:00:00Z") =
      Except.ok ((split_list_into_chunks ((List.range 120).map (fun k => (k : Int)))
          MAX_NUM_ORBITS_PER_REQUEST).map
        (completeChunkRequest (get_applicable_collection_list ("ATL_NOM_1B")) ("ATL_NOM_1B")
          none none none none none none none)) ∧
    (split_list_into_chunks ((List.range 120).map (fun k => (k : Int)))
        MAX_NUM_ORBITS_PER_REQUEST).length =
      (((List.range 120).map (fun k => (k : Int))).length +
        (MAX_NUM_ORBITS_PER_REQUEST - 1)) / MAX_NUM_ORBITS_PER_REQUEST ∧
    (∀ c ∈ split_list_into_chunks ((List.range 120).map (fun k => (k : Int)))
        MAX_NUM_ORBITS_PER_REQUEST, c.length ≤ MAX_NUM_ORBITS_PER_REQUEST) ∧
    (split_list_into_chunks ((List.range 120).map (fun k => (k : Int)))
        MAX_NUM_ORBITS_PER_REQUEST).flatten = (List.range 120).map (fun k => (k : Int)) :=
  claim8_chunking ("ATL_NOM_1B") ("2025-01-01T00:00:00Z")
    ((List.range 120).map (fun k => (k : Int))) (by decide) (by decide)

/-- C9: the selector-combination validation raises `InvalidInputError`
exactly when a start or end orbit-and-frame range token is supplied
together with any separate orbit-number selector (list, start or end) or
frame-letter selector; in that case the whole pre-network planning phase
of `main` fails with that error, so no search request is ever issued.
Supplying the orbit-and-frame list selector (`-oaf`) together with the
range selectors passes validation and the planning phase succeeds, as the
concrete run in the last conjunct shows. -/
theorem claim9_selector_rejection (soaf eoaf : Option String) (so eo : Option Int)
    (orbit_numbers : Option (List Int)) (frame_ids : Option (List String)) :
    (validate_combination_of_given_orbit_and_frame_range_inputs soaf eoaf so eo
        orbit_numbers frame_ids = Except.error PyError.invalidInput ↔
      ((soaf.isSome ∨ eoaf.isSome) ∧
        (so.isSome ∨ eo.isSome ∨ orbit_numbers.isSome ∨ frame_ids.isSome))) ∧
    (∀ (product_types product_versions : List String)
      (radius lat lon bbox start_time end_time : Option String)
      (tss oafs : Option (List String)) (nowStr : String),
      (soaf.isSome ∨ eoaf.isSome) →
      (so.isSome ∨ eo.isSome ∨ orbit_numbers.isSome ∨ frame_ids.isSome) →
      planSearchRequestsPhase product_types product_versions radius lat lon bbox
        start_time end_time tss orbit_numbers so eo frame_ids oafs soaf eoaf nowStr =
        Except.error PyError.invalidInput) ∧
    exceptIsOk (planSearchRequestsPhase ["ATL_NOM_1B"] ["latest"] none none none none
      none none none none none none none (some [("00005A")]) (some ("00010F"))
      (some ("00012C")) ("2025-01-01T00:00:00Z")) = true := by
  have hcond : ∀ (h1 : soaf.isSome ∨ eoaf.isSome)
      (h2 : so.isSome ∨ eo.isSome ∨ orbit_numbers.isSome ∨ frame_ids.isSome),
      ((soaf.isSome || eoaf.isSome) &&
        (so.isSome || eo.isSome || orbit_numbers.isSome || frame_ids.isSome)) = true := by
    intro h1 h2
    simp only [Bool.and_eq_true, Bool.or_eq_true]
    tauto
  have hval : ∀ (h1 : soaf.isSome ∨ eoaf.isSome)
      (h2 : so.isSome ∨ eo.isSome ∨ orbit_numbers.isSome ∨ frame_ids.isSome),
      validate_combination_of_given_orbit_and_frame_range_inputs soaf eoaf so eo
        orbit_numbers frame_ids = Except.error PyError.invalidInput := by
    intro h1 h2
    unfold validate_combination_of_given_orbit_and_frame_range_inputs
    rw [if_pos (hcond h1 h2)]
  refine ⟨⟨?_, fun h => hval h.1 h.2⟩, ?_, ?_⟩
  · intro h
    unfold validate_combination_of_given_orbit_and_frame_range_inputs at h
    by_cases hc : ((soaf.isSome || eoaf.isSome) &&
        (so.isSome || eo.isSome || orbit_numbers.isSome || frame_ids.isSome)) = true
    · simpa only [Bool.and_eq_true, Bool.or_eq_true, or_assoc] using hc
    · rw [if_neg hc] at h
      exact absurd h (by simp)
  · intro pts pvs radius lat lon bbox st et tss oafs nowStr h1 h2
    unfold planSearchRequestsPhase
    rw [hval h1 h2]
    rfl
  · rfl

/-- Witness for C9: a start/end orbit-and-frame range combined with a
plain orbit-number list makes the planning phase fail with
`InvalidInputError` before any search request exists. -/
theorem claim9_selector_rejection_witness :
    planSearchRequestsPhase ["ATL_NOM_1B"] ["latest"] none none none none none none none
      (some [(5 : Int)]) none none none none (some ("00010F")) (some ("00012C"))
      ("2025-01-01T00:00:00Z") = Except.error PyError.invalidInput :=
  (claim9_selector_rejection (some ("00010F")) (some ("00012C")) none none
    (some [(5 : Int)]) none).2.1 ["ATL_NOM_1B"] ["latest"] none none none none none none
    none none ("2025-01-01T00:00:00Z") (by decide) (by decide)

theorem splitAtLastDot_none (s : List Char) (h : '.' ∉ s) : splitAtLastDot s = none := by
  induction s with
  | nil => rfl
  | cons c cs ih =>
      have hc : c ≠ '.' := fun hcon => h (hcon ▸ List.mem_cons_self c cs)
      have hcs : '.' ∉ cs := fun hcon => h (List.mem_cons_of_mem c hcon)
      rw [splitAtLastDot, ih hcs]
      simp only [if_neg (fun hcon => hc hcon)]

theorem splitAtLastDot_append (xs ys : List Char) (h : '.' ∉ ys) :
    splitAtLastDot (xs ++ '.' :: ys) = some (xs, ys) := by
  induction xs with
  | nil =>
      rw [List.nil_append, splitAtLastDot, splitAtLastDot_none ys h]
      simp
  | cons c cs ih =>
      rw [List.cons_append, splitAtLastDot, ih]

theorem splitext_noDot (s : List Char) (h : '.' ∉ s) : splitext s = (s, []) := by
  unfold splitext
  rw [splitAtLastDot_none s h]

theorem splitext_append (xs ys : List Char) (hx : ∃ c ∈ xs, c ≠ '.') (hy : '.' ∉ ys) :
    splitext (xs ++ '.' :: ys) = (xs, '.' :: ys) := by
  unfold splitext
  rw [splitAtLastDot_append xs ys hy]
  have hall : xs.all (fun c => c = '.') = false := by
    rcases hx with ⟨c, hc, hne⟩
    by_contra hcon
    have htrue : xs.all (fun c => c = '.') = true := by
      cases hres : xs.all (fun c => c = '.') with
      | true => rfl
      | false => exact absurd hres hcon
    have := List.all_eq_true.1 htrue c hc
    exact hne (of_decide_eq_true this)
  show (if (xs.all fun c => decide (c = '.')) = true then (xs ++ '.' :: ys, [])
    else (xs, '.' :: ys)) = (xs, '.' :: ys)
  rw [hall]
  simp

theorem isZipExt_parts (e : List Char) (h : IsZipExt e) :
    ∃ body, e = '.' :: body ∧ '.' ∉ body ∧
      ('.' :: body).map Char.toLower = ['.', 'z', 'i', 'p'] := by
  rcases h with ⟨z, i, p, heq, hz, hi, hp⟩
  refine ⟨[z, i, p], heq, ?_, ?_⟩
  · intro hmem
    simp only [List.mem_cons, List.not_mem_nil, or_false] at hmem
    rcases hmem with h1 | h1 | h1
    · rw [← h1] at hz
      exact absurd hz (by decide)
    · rw [← h1] at hi
      exact absurd hi (by decide)
    · rw [← h1] at hp
      exact absurd hp (by decide)
  · simp only [List.map_cons, List.map_nil, hz, hi, hp]
    rw [show Char.toLower ('.') = ('.') from by decide]

theorem flatExts_length (es : List (List Char)) (hes : ∀ e ∈ es, IsZipExt e) :
    (flatExts es).length = 4 * es.length := by
  induction es with
  | nil => rfl
  | cons e t ih =>
      rcases hes e (List.mem_cons_self e t) with ⟨z, i, p, heq, _, _, _⟩
      rw [flatExts, List.length_append, ih (fun x hx => hes x (List.mem_cons_of_mem e hx)),
        heq]
      simp only [List.length_cons, List.length_nil, List.length_cons]
      omega

theorem dropZipExtsFuel_strip (stem : List Char) (h0 : stem ≠ []) (hdot : '.' ∉ stem) :
    ∀ (es : List (List Char)), (∀ e ∈ es, IsZipExt e) →
    ∀ f, es.length ≤ f →
    dropZipExtsFuel f (splitext (stem ++ flatExts es)).1
      (splitext (stem ++ flatExts es)).2 = stem := by
  intro es
  induction es with
  | nil =>
      intro _ f _
      rw [show flatExts [] = [] from rfl, List.append_nil, splitext_noDot stem hdot]
      cases f with
      | zero => rfl
      | succ g =>
          show (if ([] : List Char).map Char.toLower = ['.', 'z', 'i', 'p'] then
              dropZipExtsFuel g (splitext stem).1 (splitext stem).2 else stem) = stem
          rw [if_neg (by decide)]
  | cons e t ih =>
      intro hes f hf
      rcases isZipExt_parts e (hes e (List.mem_cons_self e t)) with ⟨body, heq, hbody, hlow⟩
      have hstemc : ∃ c ∈ stem ++ flatExts t, c ≠ '.' := by
        rcases List.exists_mem_of_ne_nil stem h0 with ⟨c, hc⟩
        exact ⟨c, List.mem_append_left _ hc, fun hcon => hdot (hcon ▸ hc)⟩
      have hflat : stem ++ flatExts (e :: t) = (stem ++ flatExts t) ++ '.' :: body := by
        rw [flatExts, heq, ← List.append_assoc]
      rw [hflat, splitext_append (stem ++ flatExts t) body hstemc hbody]
      cases f with
      | zero => exact absurd hf (by simp)
      | succ g =>
          rw [dropZipExtsFuel]
          rw [if_pos hlow]
          exact ih (fun x hx => hes x (List.mem_cons_of_mem e hx)) g (by
            simp only [List.length_cons] at hf
            omega)

theorem ensure_single_zip_extension_eq (stem : List Char) (es : List (List Char))
    (h0 : stem ≠ []) (hdot : '.' ∉ stem) (hes : ∀ e ∈ es, IsZipExt e) :
    ensure_single_zip_extension (stem ++ flatExts es) = stem ++ ['.', 'Z', 'I', 'P'] := by
  have hb : es.length ≤ (stem ++ flatExts es).length + 1 := by
    rw [List.length_append, flatExts_length es hes]
    omega
  unfold ensure_single_zip_extension
  show dropZipExtsFuel ((stem ++ flatExts es).length + 1)
    (splitext (stem ++ flatExts es)).1 (splitext (stem ++ flatExts es)).2 ++
      ['.', 'Z', 'I', 'P'] = stem ++ ['.', 'Z', 'I', 'P']
  rw [dropZipExtsFuel_strip stem h0 hdot es hes _ hb]

theorem splitAtLastSlash_none (s : List Char) (h : '/' ∉ s) : splitAtLastSlash s = none := by
  induction s with
  | nil => rfl
  | cons c cs ih =>
      have hc : c ≠ '/' := fun hcon => h (hcon ▸ List.mem_cons_self c cs)
      have hcs : '/' ∉ cs := fun hcon => h (List.mem_cons_of_mem c hcon)
      rw [splitAtLastSlash, ih hcs]
      simp only [if_neg (fun hcon => hc hcon)]

theorem splitAtLastSlash_append (xs ys : List Char) (h : '/' ∉ ys) :
    splitAtLastSlash (xs ++ '/' :: ys) = some (xs, ys) := by
  induction xs with
  | nil =>
      rw [List.nil_append, splitAtLastSlash, splitAtLastSlash_none ys h]
      simp
  | cons c cs ih =>
      rw [List.cons_append, splitAtLastSlash, ih]

theorem pybasename_append (dir name : List Char) (h : '/' ∉ name) :
    pybasename (dir ++ '/' :: name) = name := by
  unfold pybasename
  rw [splitAtLastSlash_append dir name h]

theorem rstripSlash_of_getLast (l : List Char) (c : Char) (h : l.getLast? = some c)
    (hc : c ≠ '/') : rstripSlash l = l := by
  unfold rstripSlash
  have hrev : l.reverse.head? = some c := by
    rw [List.head?_reverse, h]
  cases hr : l.reverse with
  | nil =>
      rw [hr] at hrev
      exact absurd hrev (by simp)
  | cons a t =>
      rw [hr] at hrev
      have ha : a = c := by
        simp only [List.head?_cons, Option.some.injEq] at hrev
        exact hrev
      have hd : List.dropWhile (fun c => decide (c = '/')) (a :: t) = a :: t := by
        rw [List.dropWhile_cons]
        simp [ha, hc]
      rw [hd, ← hr, List.reverse_reverse]

theorem pydirname_append (dir name : List Char) (hd0 : dir ≠ [])
    (hdl : dir.getLast? ≠ some '/') (h : '/' ∉ name) :
    pydirname (dir ++ '/' :: name) = dir := by
  unfold pydirname
  rw [splitAtLastSlash_append dir name h]
  have hc : dir.getLast? = some (dir.getLast hd0) := List.getLast?_eq_getLast dir hd0
  have hlast : dir.getLast hd0 ≠ '/' := by
    intro hcon
    exact hdl (hcon ▸ hc)
  have hall : ((dir ++ ['/']).all fun c => c = '/') = false := by
    by_contra hcon
    have htrue : ((dir ++ ['/']).all fun c => c = '/') = true := by
      cases hres : (dir ++ ['/']).all fun c => c = '/' with
      | true => rfl
      | false => exact absurd hres hcon
    have hmem : dir.getLast hd0 ∈ dir ++ ['/'] :=
      List.mem_append_left _ (List.getLast_mem hd0)
    have := List.all_eq_true.1 htrue _ hmem
    exact hlast (of_decide_eq_true this)
  show (if ((dir ++ ['/']).all fun c => c = '/') = true then dir ++ ['/']
    else rstripSlash dir) = dir
  rw [if_neg (by simp [hall])]
  exact rstripSlash_of_getLast dir (dir.getLast hd0) hc hlast

theorem pyjoin_append (dir name : List Char) (hd0 : dir ≠ [])
    (hdl : dir.getLast? ≠ some '/') (hn : name.head? ≠ some '/') :
    pyjoin dir name = dir ++ '/' :: name := by
  unfold pyjoin
  rw [if_neg hn, if_neg hd0, if_neg hdl]

theorem takeWhile_append_dot (stem r : List Char) (hdot : '.' ∉ stem) :
    (stem ++ '.' :: r).takeWhile (fun c => c ≠ '.') = stem := by
  induction stem with
  | nil => simp [List.takeWhile_cons]
  | cons a t ih =>
      have ha : a ≠ '.' := fun hcon => hdot (hcon ▸ List.mem_cons_self a t)
      have ht : '.' ∉ t := fun hcon => hdot (List.mem_cons_of_mem a hcon)
      rw [List.cons_append, List.takeWhile_cons, if_pos (by simp [ha]), ih ht]

/-- C10: for every downloaded file name consisting of a non-empty base
name with no dot (and no slash) followed by any chain of `.zip`/`.ZIP`
extensions, the archive name normalised by `ensure_single_zip_extension`
is the base name with a single `.ZIP` extension, and the directory
`unzip_file` extracts into (the archive basename truncated at its first
dot, joined to the archive's directory) is exactly the extracted path the
download loop checks (the archive path minus its trailing 4-character
`.ZIP`), so a successful extraction is always recognised as success. -/
theorem claim10_extraction_path (dir stem : List Char) (es : List (List Char))
    (hstem0 : stem ≠ []) (hdot : '.' ∉ stem) (hslash : '/' ∉ stem)
    (hes : ∀ e ∈ es, IsZipExt e)
    (hdir0 : dir ≠ []) (hdirlast : dir.getLast? ≠ some '/') :
    ensure_single_zip_extension (stem ++ flatExts es) = stem ++ ['.', 'Z', 'I', 'P'] ∧
    unzipExtractPath (pyjoin dir (ensure_single_zip_extension (stem ++ flatExts es))) =
      extractedPathOfZip (pyjoin dir (ensure_single_zip_extension (stem ++ flatExts es))) := by
  have hnorm := ensure_single_zip_extension_eq stem es hstem0 hdot hes
  refine ⟨hnorm, ?_⟩
  rw [hnorm]
  have hnslash : '/' ∉ stem ++ ['.', 'Z', 'I', 'P'] := by
    intro hmem
    rcases List.mem_append.1 hmem with h | h
    · exact hslash h
    · exact absurd h (by decide)
  have hnhead : (stem ++ ['.', 'Z', 'I', 'P']).head? ≠ some '/' := by
    cases stem with
    | nil => exact absurd rfl hstem0
    | cons a t =>
        intro hcon
        have ha : a = '/' := by
          simp only [List.cons_append, List.head?_cons, Option.some.injEq] at hcon
          exact hcon
        exact hslash (ha ▸ List.mem_cons_self a t)
  have hshead : stem.head? ≠ some '/' := by
    cases stem with
    | nil => simp
    | cons a t =>
        intro hcon
        have ha : a = '/' := by
          simp only [List.head?_cons, Option.some.injEq] at hcon
          exact hcon
        exact hslash (ha ▸ List.mem_cons_self a t)
  rw [pyjoin_append dir _ hdir0 hdirlast hnhead]
  unfold unzipExtractPath extractedPathOfZip
  rw [pybasename_append dir _ hnslash, pydirname_append dir _ hdir0 hdirlast hnslash]
  rw [show stem ++ ['.', 'Z', 'I', 'P'] = stem ++ '.' :: ['Z', 'I', 'P'] from rfl]
  rw [takeWhile_append_dot stem _ hdot]
  rw [pyjoin_append dir stem hdir0 hdirlast hshead]
  have hre : dir ++ '/' :: (stem ++ '.' :: ['Z', 'I', 'P']) =
      (dir ++ '/' :: stem) ++ ['.', 'Z', 'I', 'P'] := by
    simp
  rw [hre, List.length_append]
  have hlen : (dir ++ '/' :: stem).length + (['.', 'Z', 'I', 'P'] : List Char).length - 4 =
      (dir ++ '/' :: stem).length := by
    simp
  rw [hlen, List.take_left]

/-- Witness for C10: the file name `ECA_file.zip` in directory `data`
normalises to `ECA_file.ZIP`, and the extraction directory
`data/ECA_file` equals the path the loop checks. -/
theorem claim10_extraction_path_witness :
    ensure_single_zip_extension (("ECA_file").data ++ flatExts [(".zip").data]) =
      ("ECA_file").data ++ ['.', 'Z', 'I', 'P'] ∧
    unzipExtractPath (pyjoin (("data").data)
        (ensure_single_zip_extension (("ECA_file").data ++ flatExts [(".zip").data]))) =
      extractedPathOfZip (pyjoin (("data").data)
        (ensure_single_zip_extension (("ECA_file").data ++ flatExts [(".zip").data]))) :=
  claim10_extraction_path (("data").data) (("ECA_file").data) [(".zip").data]
    (by decide) (by decide) (by decide)
    (by
      intro e he
      simp only [List.mem_singleton] at he
      subst he
      exact ⟨'z', 'i', 'p', rfl, by decide, by decide, by decide⟩)
    (by decide) (by decide)
